import Mathlib

/-!
Verification of the SpecQuery OpenAPI-to-TanStack-Query code generator.

This file embeds the generator's operation model (src/model.ts), the spec
loader's derivations (src/loaders/openapi.ts), the optional
openapi-typescript integration loader (src/loaders/openapi-ts.ts), the four
template renderers (src/emit/templates/*.tpl.ts) and the generation driver
(src/generate.ts) as executable Lean definitions, and proves properties of
them.

Conventions of the embedding:
* JavaScript strings are Lean `String`s; template-literal interpolation is
  string concatenation (written as `joinAll` over the literal chunks, in
  source order).
* JavaScript runtime values that flow through `any`-typed positions
  (JSON documents, query-parameter values, schemas) are modelled by the
  inductive type `JsVal`.  A missing value (`undefined` off the end of a
  lookup) is `Option.none` or `JsVal.undef` depending on position.
* Code that can throw is modelled with `Option`/`Except`; the I/O boundary
  (file reads, spec fetching) is passed in as an `Except` input.
-/

set_option maxRecDepth 4000

/-- Appends a list of strings in order; the meaning of a JavaScript template
literal `a${x}b` written as `joinAll ["a", x, "b"]`. -/
def joinAll : List String → String
  | [] => ""
  | s :: rest => s ++ joinAll rest

/-- Joins strings with a separator; the meaning of JavaScript
`Array.prototype.join(sep)`. -/
def joinSep (sep : String) : List String → String
  | [] => ""
  | [s] => s
  | s :: rest => s ++ sep ++ joinSep sep rest

/-- Whether the character list `n` occurs at the start of `h`. -/
def startsWithChars : List Char → List Char → Bool
  | [], _ => true
  | _ :: _, [] => false
  | a :: as, b :: bs => a == b && startsWithChars as bs

/-- Whether the character list `n` occurs contiguously anywhere in `h`. -/
def hasSubChars (n : List Char) : List Char → Bool
  | [] => n.isEmpty
  | l@(_ :: t) => startsWithChars n l || hasSubChars n t

/-- Whether the string `needle` occurs contiguously in `hay`. -/
def strHasSub (needle hay : String) : Bool :=
  hasSubChars needle.data hay.data

/-- JavaScript runtime values flowing through `any`-typed positions:
parsed JSON documents, query-parameter maps, schema objects. -/
inductive JsVal where
  | undef
  | null
  | str (s : String)
  | num (n : Int)
  | boolVal (b : Bool)
  | arr (items : List JsVal)
  | obj (fields : List (String × JsVal))

/-- JavaScript truthiness of a `JsVal` (`undefined`, `null`, `false`, `0`
and `""` are falsy; objects and arrays are always truthy). -/
def jsTruthy : JsVal → Bool
  | .undef => false
  | .null => false
  | .str s => s ≠ ""
  | .num n => n ≠ 0
  | .boolVal b => b
  | .arr _ => true
  | .obj _ => true

/-- Property lookup on a `JsVal`: `v.k` in JavaScript, yielding `none` for
`undefined`.  Duplicate keys resolve to the last occurrence, as after
`JSON.parse`. -/
def jsGet (v : JsVal) (k : String) : Option JsVal :=
  match v with
  | .obj fields => fields.foldl (fun acc f => if f.1 = k then some f.2 else acc) none
  | _ => none

/-- JavaScript `x || d` on an optional value: `d` when `x` is absent or
falsy. -/
def jsOr (x : Option JsVal) (d : JsVal) : JsVal :=
  match x with
  | some v => if jsTruthy v then v else d
  | none => d

/-- Depth-fuelled JavaScript `String(v)` coercion (`Array.prototype.toString`
joins element strings with `,`, rendering `null`/`undefined` elements as
empty). The fuel only bounds array nesting depth. -/
def jsToStringFuel : Nat → JsVal → String
  | _, .undef => "undefined"
  | _, .null => "null"
  | _, .str s => s
  | _, .num n => toString n
  | _, .boolVal b => cond b "true" "false"
  | _, .obj _ => "[object Object]"
  | 0, .arr _ => ""
  | fuel + 1, .arr items =>
    joinSep "," (items.map fun v =>
      match v with
      | .undef => ""
      | .null => ""
      | x => jsToStringFuel fuel x)

mutual

/-- Structural size of a `JsVal`, an executable bound on nesting depth. -/
def jsSize : JsVal → Nat
  | .arr items => 1 + jsSizeList items
  | .obj fields => 1 + jsSizeFields fields
  | _ => 1

/-- Summed size of a list of `JsVal`s. -/
def jsSizeList : List JsVal → Nat
  | [] => 0
  | v :: rest => jsSize v + jsSizeList rest

/-- Summed size of the values of an object's field list. -/
def jsSizeFields : List (String × JsVal) → Nat
  | [] => 0
  | (_, v) :: rest => jsSize v + jsSizeFields rest

end

/-- JavaScript `String(v)` coercion (`jsSize v` bounds the nesting depth,
so the fuel never runs out). -/
def jsToString (v : JsVal) : String :=
  jsToStringFuel (jsSize v) v

/-- HTTP methods recognised by the loader (src/model.ts `HttpMethod`). -/
inductive HttpMethod where
  | get
  | post
  | put
  | patch
  | delete
  | head
deriving DecidableEq

/-- Uppercase method name, the meaning of `op.method.toUpperCase()`. -/
def methodUpper : HttpMethod → String
  | .get => "GET"
  | .post => "POST"
  | .put => "PUT"
  | .patch => "PATCH"
  | .delete => "DELETE"
  | .head => "HEAD"

/-- One parameter of an operation (src/model.ts `Param`).  The source's
`in` field is renamed `loc` (`in` is a Lean keyword); `required` is the
boolean the loader normalises with `?? false`; `schema` is the raw schema
object. -/
structure Param where
  name : String
  loc : String
  required : Bool := false
  schema : Option JsVal := none

/-- Request body of an operation (src/model.ts `Op.requestBody`). -/
structure RequestBody where
  contentType : String
  schema : Option JsVal := none
  required : Bool := false

/-- One response entry (src/model.ts `Op.responses` values). -/
structure RespEntry where
  contentType : Option String := none
  schema : Option JsVal := none
  description : Option String := none

/-- One normalised operation (src/model.ts `Op`).  `responses` keeps the
source document's insertion order, as `Object.entries` does. -/
structure Op where
  tag : String
  operationId : String
  method : HttpMethod
  path : String
  summary : Option String := none
  description : Option String := none
  params : List Param := []
  requestBody : Option RequestBody := none
  responses : List (String × RespEntry) := []
  pathParams : List Param := []
  queryParams : List Param := []
  headerParams : List Param := []
  cookieParams : List Param := []

/-- The normalised document (src/model.ts `SpecModel`), restricted to the
fields the generation pipeline reads. -/
structure SpecModel where
  ops : List Op
  title : Option String := none
  version : Option String := none
  serverBaseUrl : Option String := none

/-- One character of a camel-case word: ASCII letters and digits. -/
def isWordAlnum (c : Char) : Bool := c.isAlpha || c.isDigit

/-- Splits a character list into words at non-alphanumeric characters, at
lower/digit→upper boundaries and before the last upper of an
upper-run followed by a lower (modelled from the `change-case` npm library,
the external dependency used for every `camelCase` call in the source).
`acc` holds the current word reversed. -/
def splitWordsAux : List Char → List Char → List (List Char)
  | [], acc => if acc.isEmpty then [] else [acc.reverse]
  | c :: rest, acc =>
    if !(isWordAlnum c) then
      (if acc.isEmpty then [] else [acc.reverse]) ++ splitWordsAux rest []
    else if c.isUpper then
      match acc with
      | [] => splitWordsAux rest [c]
      | a :: as =>
        if a.isLower || a.isDigit then (a :: as).reverse :: splitWordsAux rest [c]
        else
          match rest with
          | [] => splitWordsAux rest (c :: a :: as)
          | r :: _ =>
            if r.isLower then (a :: as).reverse :: splitWordsAux rest [c]
            else splitWordsAux rest (c :: a :: as)
    else splitWordsAux rest (c :: acc)

/-- Uppercases the first character of a word. -/
def capitalizeChars : List Char → List Char
  | [] => []
  | c :: cs => c.toUpper :: cs

/-- Modelled from the `change-case` npm library's `camelCase` (an external
dependency of the loader and of every renderer): split into words, lowercase
them, capitalise every word after the first, concatenate. -/
def camelCase (s : String) : String :=
  match (splitWordsAux s.data []).map (fun w => w.map Char.toLower) with
  | [] => ""
  | w :: ws => String.mk (w ++ (ws.map capitalizeChars).flatten)


/-- Uppercase hexadecimal digit for percent-encoding. -/
def hexDigit (n : Nat) : Char := if n < 10 then Char.ofNat (48 + n) else Char.ofNat (55 + n)

/-- UTF-8 byte values of one character. -/
def utf8Bytes (c : Char) : List Nat :=
  let n := c.toNat
  if n < 128 then [n]
  else if n < 2048 then [192 + n / 64, 128 + n % 64]
  else if n < 65536 then [224 + n / 4096, 128 + (n / 64) % 64, 128 + n % 64]
  else [240 + n / 262144, 128 + (n / 4096) % 64, 128 + (n / 64) % 64, 128 + n % 64]

/-- `application/x-www-form-urlencoded` encoding of one byte, as
`URLSearchParams.toString` produces it: ASCII alphanumerics and `*-._`
kept, space becomes `+`, everything else percent-encoded. -/
def urlencodeByte (n : Nat) : List Char :=
  if (48 ≤ n ∧ n ≤ 57) ∨ (65 ≤ n ∧ n ≤ 90) ∨ (97 ≤ n ∧ n ≤ 122) ∨ n = 42 ∨ n = 45 ∨ n = 46 ∨ n = 95 then [Char.ofNat n]
  else if n = 32 then ['+']
  else ['%', hexDigit (n / 16), hexDigit (n % 16)]

/-- Form-urlencoding of a string (the encoding `URLSearchParams` applies to
each key and value). -/
def urlencode (s : String) : String :=
  String.mk (((s.data.map utf8Bytes).flatten.map urlencodeByte).flatten)

/-- The (key, value) pairs accumulated in the `URLSearchParams` by the
emitted `serializeQuery` helper's `forEach` loop (hooks.tpl.ts lines
13-22): `undefined`/`null` entries are skipped, array values append one
`String(item)` pair per item in order, any other value appends one
`String(value)` pair. -/
def collectPairs : List (String × JsVal) → List (String × String)
  | [] => []
  | (k, v) :: rest =>
    match v with
    | .undef => collectPairs rest
    | .null => collectPairs rest
    | .arr items => (items.map (fun item => (k, jsToString item))) ++ collectPairs rest
    | v' => (k, jsToString v') :: collectPairs rest

/-- Runtime semantics of the emitted `serializeQuery` helper (the fixed
JavaScript text `serializeQueryHelperText` below, from hooks.tpl.ts lines
7-27): `none` models an `undefined` input (`if (!input) return ""`), the
pairs are serialised by `URLSearchParams.toString`, and a non-empty result
is prefixed with `?`. -/
def serializeQuery (input : Option (List (String × JsVal))) : String :=
  match input with
  | none => ""
  | some entries =>
    let qs := joinSep "&" ((collectPairs entries).map (fun p => urlencode p.1 ++ "=" ++ urlencode p.2))
    if qs = "" then "" else "?" ++ qs



/-- Runtime semantics of one key-factory entry emitted by
`renderQueryKeys` (queryKeys.tpl.ts line 14):
`(params?: any) => ['<camelCase tag>','<camelCase operationId>', params ?? {}]`.
`none` models calling the factory with `undefined` params. -/
def queryKeyTuple (tag operationId : String) (params : Option JsVal) : List JsVal :=
  [.str (camelCase tag), .str (camelCase operationId), params.getD (.obj [])]

/-- The factory line emitted for one operation by `renderQueryKeys`
(queryKeys.tpl.ts lines 10-15). -/
def queryKeysEntryLine (tag : String) (op : Op) : String :=
  let root := camelCase tag
  let keyName := camelCase op.operationId
  joinAll ["    ", keyName, ": (params?: any) => [\x27", root, "\x27,\x27", keyName,
    "\x27, params ?? \x7b\x7d] as const"]

/-- The block emitted for one tag by `renderQueryKeys` (queryKeys.tpl.ts
lines 8-16): the `root` key and one factory line per operation. -/
def queryKeysTagBlock (p : String × List Op) : String :=
  let root := camelCase p.1
  let lines := joinSep ",\n" (p.2.map (queryKeysEntryLine p.1))
  joinAll ["  ", root, ": \x7b\n    root: [\x27", root, "\x27] as const,\n", lines, "\n  \x7d"]

/-- The query-key factory file text (queryKeys.tpl.ts `renderQueryKeys`),
over the tag-grouped operations in insertion order. -/
def renderQueryKeys (byTag : List (String × List Op)) : String :=
  joinAll ["\n// GENERATED FILE\nexport const queryKeys = \x7b\n",
    joinSep ",\n" (byTag.map queryKeysTagBlock),
    "\n\x7d as const;\n"]

/-- The operations of a tag that receive an invalidation entry: the
invalidate renderer filters to `get`/`head` methods (invalidate.tpl.ts
line 14). -/
def invalidateOps (ops : List Op) : List Op :=
  ops.filter (fun op => op.method == .get || op.method == .head)

/-- The key-factory member reference emitted inside one invalidation entry
(invalidate.tpl.ts line 17): `queryKeys.<camelCase tag>.<camelCase operationId>`. -/
def invalidateKeyRef (tag : String) (op : Op) : String :=
  joinAll ["queryKeys.", camelCase tag, ".", camelCase op.operationId]

/-- The invalidation entry line emitted for one operation
(invalidate.tpl.ts lines 15-18). -/
def invalidateEntryLine (tag : String) (op : Op) : String :=
  let name := camelCase op.operationId
  joinAll ["    ", name, ": (params?: any) => qc.invalidateQueries(\x7b queryKey: ",
    invalidateKeyRef tag op, "(params) \x7d)"]

/-- The block emitted for one tag by `renderInvalidate` (invalidate.tpl.ts
lines 11-21): one entry per `get`/`head` operation of the tag. -/
def invalidateTagBlock (p : String × List Op) : String :=
  let t := camelCase p.1
  let entries := joinSep ",\n" ((invalidateOps p.2).map (invalidateEntryLine p.1))
  joinAll ["  ", t, ": \x7b\n", entries, "\n  \x7d"]

/-- The invalidation helpers file text (invalidate.tpl.ts
`renderInvalidate`). -/
def renderInvalidate (byTag : List (String × List Op)) : String :=
  joinAll ["\n// GENERATED FILE\nimport \x7b QueryClient \x7d from \x27@tanstack/react-query\x27;\nimport \x7b queryKeys \x7d from \x27./queryKeys.js\x27;\n\nexport const invalidate = (qc: QueryClient) => (\x7b\n",
    joinSep ",\n" (byTag.map invalidateTagBlock),
    "\n\x7d);\n"]

/-- Whether `s` starts with `pre` (JavaScript `String.prototype.startsWith`). -/
def strStartsWith (s pre : String) : Bool :=
  startsWithChars pre.data s.data

/-- Classification of an operation as a cache-read query (hooks.tpl.ts
line 5): `m === "get" || m === "head"`. -/
def isQuery (m : HttpMethod) : Bool := m == .get || m == .head

/-- Coarse TypeScript type for a parameter (hooks.tpl.ts
`getTypeScriptType`): decided only by the top-level `schema.type`. -/
def getTypeScriptType (p : Param) : String :=
  match p.schema with
  | none => "string"
  | some schema =>
    if !(jsTruthy schema) then "string"
    else
      match jsGet schema "type" with
      | some (.str "integer") => "number"
      | some (.str "number") => "number"
      | some (.str "boolean") => "boolean"
      | some (.str "array") => "any[]"
      | some (.str "object") => "Record<string, any>"
      | _ => "string"

/-- Request-body TypeScript type (hooks.tpl.ts `generateRequestBodyType`):
the source returns `"any"` on both branches of its schema check. -/
def generateRequestBodyType (op : Op) : String :=
  if !(((op.requestBody.bind (fun b => b.schema)).map jsTruthy).getD false) then "any" else "any"

/-- Response TypeScript type (hooks.tpl.ts `generateResponseType`): the
first response entry whose status code starts with "2" and carries a
truthy schema decides between `any[]`, a generic object map and `any`. -/
def generateResponseType (op : Op) : String :=
  match op.responses.find? (fun ce => strStartsWith ce.1 "2" && ((ce.2.schema.map jsTruthy).getD false)) with
  | none => "any"
  | some ce =>
    match ce.2.schema with
    | none => "any"
    | some schema =>
      match jsGet schema "type" with
      | some (.str "array") =>
        if ((jsGet schema "items").map jsTruthy).getD false then "any[]" else "any"
      | some (.str "object") => "Record<string, any>"
      | _ => "any"

/-- The `params`/variables object type of a hook (hooks.tpl.ts
`generateParamsType`). -/
def generateParamsType (op : Op) (includeBody : Bool) (bodyType : String) : String :=
  let pathParams := op.pathParams
  let queryParams := op.queryParams
  let headerParams := op.headerParams
  let pathType :=
    if pathParams.length > 0 then
      joinAll ["\x7b ", joinSep "; " (pathParams.map (fun p => joinAll [p.name, ": ", getTypeScriptType p])), " \x7d"]
    else "Record<string, never>"
  let queryType :=
    if queryParams.length > 0 then
      joinAll ["\x7b ", joinSep "; " (queryParams.map (fun p => joinAll [p.name, if p.required then "" else "?", ": ", getTypeScriptType p])), " \x7d"]
    else "Record<string, never>"
  let headerType :=
    if headerParams.length > 0 then
      joinAll ["\x7b ", joinSep "; " (headerParams.map (fun p => joinAll [p.name, if p.required then "" else "?", ": ", getTypeScriptType p])), " \x7d"]
    else "Record<string, string>"
  let lines :=
    ["  path?: " ++ pathType ++ ";", "  query?: " ++ queryType ++ ";", "  headers?: " ++ headerType ++ ";"]
      ++ (if includeBody then ["  body?: " ++ bodyType ++ ";"] else [])
  joinAll ["\x7b\n", joinSep "\n" lines, "\n\x7d"]

/-- Whether `s` ends with `suffix` (JavaScript `String.prototype.endsWith`). -/
def strEndsWith (s suffix : String) : Bool :=
  startsWithChars suffix.data.reverse s.data.reverse

/-- Runtime accessor expression for one parameter property (hooks.tpl.ts
`buildParamAccessor`); `base.slice(0, -1)` is `dropLast` on the characters. -/
def buildParamAccessor (base property : String) : String :=
  let optionalBase := strEndsWith base "?"
  let cleanBase := if optionalBase then String.mk base.data.dropLast else base
  if strHasSub "?." cleanBase || optionalBase then joinAll [cleanBase, "?.", property]
  else joinAll [cleanBase, ".", property]

/-- A `\w` character of the placeholder regex `/{(\w+)}/g`. -/
def wordChar (c : Char) : Bool := c.isAlpha || c.isDigit || c == '_'

/-- Replacement text for one matched `{name}` placeholder (hooks.tpl.ts
lines 124-132): a direct `${accessor}` interpolation when the named path
parameter is declared required, and a `${accessor ?? ''}` fallback when it
is optional or its declaration is absent (`param?.required` falsy). -/
def substForPlaceholder (pathParams : List Param) (accessorBase name : String) : String :=
  let accessor := buildParamAccessor accessorBase name
  match pathParams.find? (fun p => p.name == name) with
  | some p =>
    if p.required then joinAll ["$\x7b", accessor, "\x7d"]
    else joinAll ["$\x7b", accessor, " ?? \x27\x27\x7d"]
  | none => joinAll ["$\x7b", accessor, " ?? \x27\x27\x7d"]

/-- Scanning replacement of every `/{(\w+)}/g` match (the
`path.replace` call of hooks.tpl.ts line 123).  The `Nat` fuel only bounds
the number of scanning steps; `replacePlaceholders` below supplies the
input length, which always suffices since every step consumes at least one
character. -/
def replacePlaceholdersFuel (pathParams : List Param) (accessorBase : String) : Nat → List Char → List Char
  | 0, l => l
  | _ + 1, [] => []
  | fuel + 1, c :: rest =>
    if c == Char.ofNat 123 then
      let w := rest.takeWhile wordChar
      match rest.drop w.length with
      | r :: tail =>
        if !w.isEmpty && r == Char.ofNat 125 then
          (substForPlaceholder pathParams accessorBase (String.mk w)).data
            ++ replacePlaceholdersFuel pathParams accessorBase fuel tail
        else c :: replacePlaceholdersFuel pathParams accessorBase fuel rest
      | [] => c :: replacePlaceholdersFuel pathParams accessorBase fuel rest
    else c :: replacePlaceholdersFuel pathParams accessorBase fuel rest

/-- `path.replace(/{(\w+)}/g, ...)` over a whole path template. -/
def replacePlaceholders (pathParams : List Param) (accessorBase : String) (path : String) : List Char :=
  replacePlaceholdersFuel pathParams accessorBase path.data.length path.data

/-- The request-path expression of a hook (hooks.tpl.ts
`buildPathWithParams`): with an empty declared path-parameter list the path
is emitted as a single-quoted literal, untouched; otherwise a backtick
template with every `{name}` placeholder replaced. -/
def buildPathWithParams (path : String) (pathParams : List Param) (accessorBase : String) : String :=
  if pathParams.length = 0 then joinAll ["\x27", path, "\x27"]
  else joinAll ["`", String.mk (replacePlaceholders pathParams accessorBase path), "`"]

/-- The key-factory member reference a query hook reads its cache key from
(hooks.tpl.ts lines 138-139, the `key` constant):
`queryKeys.<camelCase tag>.<camelCase operationId>`. -/
def hookKeyRef (tag : String) (op : Op) : String :=
  joinAll ["queryKeys.", camelCase tag, ".", camelCase op.operationId]

/-- One query-style hook (hooks.tpl.ts `renderQueryHook`).  The `none`
case models `fn[0].toUpperCase()` throwing a TypeError when the
camel-cased operation id is empty (`fn[0]` is `undefined`). -/
def renderQueryHook (tag : String) (op : Op) : Option String :=
  let fn := camelCase op.operationId
  let key := hookKeyRef tag op
  let pathParams := op.pathParams
  let paramTypes := generateParamsType op false "never"
  let responseType := generateResponseType op
  match fn.data with
  | [] => none
  | c :: cs =>
    some (joinAll [
      "\nexport const use", String.mk (c.toUpper :: cs), " = <TData = ", responseType,
      ">(\n  params?: ", paramTypes,
      ",\n  options?: \x7b\n    enabled?: boolean;\n    staleTime?: number;\n    gcTime?: number;\n    retry?: boolean | number;\n    retryDelay?: number | ((retryCount: number) => number);\n    refetchOnWindowFocus?: boolean;\n    refetchOnMount?: boolean;\n    refetchOnReconnect?: boolean;\n  \x7d\n) =>\n  useQuery<TData, ApiError>(\x7b\n    queryKey: ",
      key, "(params?.query),\n    queryFn: async () => \x7b\n      const requestPath = ",
      buildPathWithParams op.path pathParams "params?.path",
      ";\n      const search = serializeQuery(params?.query);\n      return client.request<TData>(\x27",
      methodUpper op.method,
      "\x27, requestPath + search, \x7b\n        headers: params?.headers ?? undefined,\n      \x7d);\n    \x7d,\n    ...options,\n  \x7d);\n"])

/-- One mutation-style hook (hooks.tpl.ts `renderMutationHook`; the
source's unused `key` constant is dropped).  The `none` case models the
same `fn[0].toUpperCase()` TypeError as `renderQueryHook`. -/
def renderMutationHook (tag : String) (op : Op) : Option String :=
  let fn := camelCase op.operationId
  let pathParams := op.pathParams
  let responseType := generateResponseType op
  let requestBodyType := generateRequestBodyType op
  let hasBody := op.requestBody.isSome
  let variablesType := generateParamsType op hasBody requestBodyType
  let destructured := if hasBody then "\x7b path, query, headers, body \x7d" else "\x7b path, query, headers \x7d"
  let bodyLine := if hasBody then "        body: body === undefined ? undefined : JSON.stringify(body),\n" else ""
  match fn.data with
  | [] => none
  | c :: cs =>
    some (joinAll [
      "\nexport const use", String.mk (c.toUpper :: cs), " = <TData = ", responseType,
      ">(\n  options?: \x7b\n    onSuccess?: (data: TData) => void;\n    onError?: (error: ApiError) => void;\n    retry?: boolean | number;\n    retryDelay?: number | ((retryCount: number) => number);\n  \x7d\n) =>\n  useMutation<TData, ApiError, ",
      variablesType,
      ">(\x7b\n    mutationFn: async (", destructured, ") => \x7b\n      const requestPath = ",
      buildPathWithParams op.path pathParams "path?",
      ";\n      const search = serializeQuery(query);\n      return client.request<TData>(\x27",
      methodUpper op.method,
      "\x27, requestPath + search, \x7b\n", bodyLine,
      "        headers: headers ? \x7b ...headers \x7d : undefined,\n      \x7d);\n    \x7d,\n    ...options,\n  \x7d);\n"])

/-- The per-operation renderer choice made inside `renderTagHooks`
(hooks.tpl.ts line 209): query hook iff `isQuery(op.method)`. -/
def hookFor (tag : String) (op : Op) : Option String :=
  if isQuery op.method then renderQueryHook tag op else renderMutationHook tag op

/-- All hooks of one tag joined by a blank line (hooks.tpl.ts
`renderTagHooks`); `none` when any hook render throws. -/
def renderTagHooks (tag : String) (ops : List Op) : Option String :=
  (ops.mapM (hookFor tag)).map (joinSep "\n")

/-- The fixed JavaScript text of the emitted `serializeQuery` helper
(hooks.tpl.ts lines 7-27, the `serializeQueryHelper` constant); its
runtime meaning is the `serializeQuery` function above. -/
def serializeQueryHelperText : String :=
  "\nconst serializeQuery = (input?: Record<string, unknown>) => \x7b\n  if (!input) return \"\";\n\n  const searchParams = new URLSearchParams();\n\n  Object.entries(input).forEach(([key, value]) => \x7b\n    if (value === undefined || value === null) return;\n\n    if (Array.isArray(value)) \x7b\n      value.forEach((item) => searchParams.append(key, String(item)));\n      return;\n    \x7d\n\n    searchParams.append(key, String(value));\n  \x7d);\n\n  const qs = searchParams.toString();\n  return qs ? `?$\x7bqs\x7d` : \"\";\n\x7d;\n"

/-- The header of every hooks file (hooks.tpl.ts `buildHooksHeader`). -/
def buildHooksHeader (importBase : String) : String :=
  joinAll ["// GENERATED FILE\nimport \x7b useQuery, useMutation \x7d from \x27@tanstack/react-query\x27;\nimport \x7b createClient \x7d from \x27", importBase,
    "client.js\x27;\nimport \x7b queryKeys \x7d from \x27", importBase,
    "queryKeys.js\x27;\nimport type \x7b ApiError \x7d from \x27", importBase,
    "client.js\x27;\n\nconst client = createClient();\n", serializeQueryHelperText, "\n"]

/-- A whole hooks file (hooks.tpl.ts `renderHooksTemplate`): header plus
the non-empty per-tag hook blocks. -/
def renderHooksTemplate (entries : List (String × List Op)) (importBase : String) : Option String :=
  (entries.mapM (fun e => renderTagHooks e.1 e.2)).map
    (fun parts => buildHooksHeader importBase ++ joinSep "\n" (parts.filter (fun s => s != "")))

/-- Per-tag hooks file (hooks.tpl.ts `renderHooksByTag`). -/
def renderHooksByTag (tag : String) (ops : List Op) : Option String :=
  renderHooksTemplate [(tag, ops)] "../"

/-- Combined hooks file (hooks.tpl.ts `renderHooksCombined`). -/
def renderHooksCombined (byTag : List (String × List Op)) : Option String :=
  renderHooksTemplate byTag "./"

/-- Operation-id sanitization of the loader (src/loaders/openapi.ts line
92): `.replace(/[{}]/g, "")` strips every brace character. -/
def sanitizeOperationId (s : String) : String :=
  String.mk (s.data.filter (fun c => !(c == Char.ofNat 123 || c == Char.ofNat 125)))

/-- Operation-id derivation of the loader (src/loaders/openapi.ts line
92): the declared id, or `camelCase(method + "_" + path)` when absent,
then brace-stripped. -/
def deriveOperationId (declared : Option String) (method : String) (path : String) : String :=
  sanitizeOperationId (declared.getD (camelCase (method ++ "_" ++ path)))

/-- Grouping-tag derivation of the loader (src/loaders/openapi.ts line
91): `opObj.tags?.[0] ?? "default"` — only the first declared tag is
consulted. -/
def deriveTag (tags : List String) : String :=
  tags.head?.getD "default"

/-- One step of the tag-grouping loop of `generate` (src/generate.ts lines
192-197): `Map.get`/`push`/`Map.set` keeps an existing key's position and
appends a new key at the end. -/
def insertOp : List (String × List Op) → Op → List (String × List Op)
  | [], op => [(op.tag, [op])]
  | p :: rest, op => if p.1 = op.tag then (p.1, p.2 ++ [op]) :: rest else p :: insertOp rest op

/-- The tag-grouping of `generate` (src/generate.ts lines 192-197), as an
insertion-ordered association list. -/
def groupOps (ops : List Op) : List (String × List Op) :=
  ops.foldl insertOp []

/-- `Map.get` on the insertion-ordered association list. -/
def lookupTag : List (String × List Op) → String → Option (List Op)
  | [], _ => none
  | p :: rest, t => if p.1 = t then some p.2 else lookupTag rest t

/-- The validated openapi-typescript side-config
(src/loaders/openapi-ts.ts `OpenApiTsConfig`).  `typesPath` is kept as a
raw `JsVal` because the `||`-default lets any truthy JSON value through. -/
structure OpenApiTsConfig where
  typesPath : JsVal
  baseUrl : Option String := none
  headers : Option JsVal := none

/-- JavaScript `typeof v === "object"` (true for objects, arrays and
`null`). -/
def jsIsObjectType : JsVal → Bool
  | .obj _ => true
  | .arr _ => true
  | .null => true
  | _ => false

/-- The integration-config loader (src/loaders/openapi-ts.ts
`loadOpenApiTsConfig`).  `readResult` is the outcome of
`JSON.parse(readFileSync(configPath, "utf-8"))`: `Except.error` models a
read or parse exception.  Everything inside the `try` is covered by the
`catch \x7b return null \x7d`, including the property accesses — which is
why a parsed top-level `null` (property access throws a TypeError) also
yields `none`. -/
def loadOpenApiTsConfig (configPath : Option String) (readResult : Except String JsVal) : Option OpenApiTsConfig :=
  match configPath with
  | none => none
  | some _ =>
    match readResult with
    | .error _ => none
    | .ok config =>
      match config with
      | .null => none
      | _ =>
        some
          { typesPath := jsOr (jsGet config "typesPath") (.str "./src/api/types.ts"),
            baseUrl :=
              (match jsGet config "baseUrl" with
               | some (.str s) => some s
               | _ => none),
            headers :=
              (match jsGet config "headers" with
               | some v => if jsTruthy v && jsIsObjectType v then some v else none
               | none => none) }

/-- Console output produced by `loadOpenApiTsConfig`
(src/loaders/openapi-ts.ts lines 12-33): the function contains no console
call on any path; in particular the `catch` block (lines 30-32) discards
the error without logging it. -/
def loadOpenApiTsConfigLog (_configPath : Option String) (_readResult : Except String JsVal) : List String :=
  []

/-- The integration descriptor threaded into the client renderer
(src/model.ts `OpenApiTsIntegration`). -/
structure OpenApiTsIntegration where
  typesPath : JsVal
  baseUrl : Option String := none
  headers : Option JsVal := none

/-- Node's `path.join(dir, file)` for the simple two-segment uses in this
code base. -/
def pathJoin (dir file : String) : String :=
  if dir = "" then file
  else if strEndsWith dir "/" then dir ++ file
  else dir ++ "/" ++ file

/-- Builds the integration descriptor (src/loaders/openapi-ts.ts
`generateOpenApiTsIntegration`); the spec path argument is unused by the
source as well. -/
def generateOpenApiTsIntegration (_specPath : String) (outputDir : String) (config : Option OpenApiTsConfig) : OpenApiTsIntegration :=
  { typesPath := jsOr (config.map (fun c => c.typesPath)) (.str (pathJoin outputDir "types.ts")),
    baseUrl :=
      (match config.bind (fun c => c.baseUrl) with
       | some s => if s ≠ "" then some s else none
       | none => none),
    headers :=
      (match config.bind (fun c => c.headers) with
       | some h => if jsTruthy h then some h else none
       | none => none) }

/-- The client file text (src/emit/templates/client.tpl.ts
`renderClient`): the fixed fetch-wrapper template, with the configured
base URL interpolated and, when an integration descriptor is present, a
type import at the top and a type re-export at the bottom. -/
def renderClient (baseUrl : String) (openApiTsIntegration : Option OpenApiTsIntegration) : String :=
  joinAll [
    "\n// GENERATED FILE\n",
    (match openApiTsIntegration with
     | some i => joinAll ["import type \x7b paths \x7d from \x27", jsToString i.typesPath, "\x27;"]
     | none => ""),
    "\n\nexport type ClientConfig = \x7b\n  baseUrl?: string;\n  headers?: Record<string, string>;\n  fetch?: typeof fetch;\n  retry?: \x7b\n    attempts?: number;\n    delay?: number;\n    backoff?: \x27linear\x27 | \x27exponential\x27;\n  \x7d;\n\x7d;\n\nexport class ApiError<T = unknown> extends Error \x7b\n  status: number;\n  body?: T | undefined;\n  code?: string | undefined;\n  \n  constructor(msg: string, status: number, body?: T | undefined, code?: string | undefined) \x7b \n    super(msg); \n    this.status = status; \n    this.body = body;\n    this.code = code;\n  \x7d\n  \n  static fromOpenApiTsError(error: any): ApiError \x7b\n    return new ApiError(\n      error.message || \x27API Error\x27,\n      error.status || 500,\n      error.body,\n      error.code\n    );\n  \x7d\n\x7d\n\nexport const createClient = (cfg: ClientConfig = \x7b\x7d) => \x7b\n  const f = cfg.fetch ?? fetch;\n  const base = (cfg.baseUrl ?? \"",
    baseUrl,
    "\").replace(/\\/$/, \"\");\n  \n  const defaultHeaders = \x7b\n    \"content-type\": \"application/json\",\n    ...(cfg.headers ?? \x7b\x7d)\n  \x7d;\n\n  async function request<T>(\n    method: string, \n    path: string, \n    init?: RequestInit & \x7b \n      retry?: boolean;\n      timeout?: number;\n    \x7d\n  ): Promise<T> \x7b\n    const \x7b retry = true, timeout = 30000, ...requestInit \x7d = init || \x7b\x7d;\n    \n    const controller = new AbortController();\n    const timeoutId = setTimeout(() => controller.abort(), timeout);\n    \n    try \x7b\n      const res = await f(base + path, \x7b \n        method, \n        headers: \x7b ...defaultHeaders, ...requestInit.headers \x7d, \n        signal: controller.signal,\n        ...requestInit\n      \x7d);\n      \n      clearTimeout(timeoutId);\n      \n      if (!res.ok) \x7b\n        let errorBody: any;\n        try \x7b\n          const text = await res.text();\n          errorBody = text ? JSON.parse(text) : undefined;\n        \x7d catch \x7b\n          errorBody = undefined;\n        \x7d\n        \n        throw new ApiError(\n          res.statusText || `HTTP $\x7bres.status\x7d`,\n          res.status,\n          errorBody,\n          res.status.toString()\n        );\n      \x7d\n      \n      const text = await res.text();\n      return text ? JSON.parse(text) : (\x7b\x7d as T);\n    \x7d catch (error) \x7b\n      clearTimeout(timeoutId);\n      \n      if (error instanceof ApiError) throw error;\n      if (error instanceof Error && error.name === \x27AbortError\x27) \x7b\n        throw new ApiError(\x27Request timeout\x27, 408);\n      \x7d\n      \n      throw new ApiError(\n        error instanceof Error ? error.message : \x27Unknown error\x27,\n        0,\n        undefined,\n        \x27NETWORK_ERROR\x27\n      );\n    \x7d\n  \x7d\n  \n  return \x7b request \x7d;\n\x7d\n\n",
    (match openApiTsIntegration with
     | some i => joinAll ["\n// OpenAPI-TS Integration\n// Import types from your openapi-typescript generated file\nexport type \x7b paths, components \x7d from \x27", jsToString i.typesPath, "\x27;\n"]
     | none => ""),
    "\n"]

/-- The optional helper types file (src/generate.ts `generateTypesFile`,
second revision lines 281-309); the interface name interpolates the raw
`operationId`, not its camel-cased form, and `getTypeScriptType` is the
same coarse classification the hooks template uses. -/
def generateTypesFile (spec : SpecModel) : String :=
  joinAll ["// GENERATED TYPES\nexport interface ApiResponse<T = any> \x7b\n  data: T;\n  status: number;\n  statusText: string;\n\x7d\n\nexport interface ApiError \x7b\n  message: string;\n  status: number;\n  code?: string;\n  body?: any;\n\x7d\n\n// Operation types\n",
    joinSep "\n" (spec.ops.map (fun op =>
      joinAll ["\nexport interface ", op.operationId, "Params \x7b\n  ",
        joinSep "\n  " (op.pathParams.map (fun p => joinAll [p.name, ": ", getTypeScriptType p])),
        "\n  ",
        joinSep "\n  " (op.queryParams.map (fun p => joinAll [p.name, if p.required then "" else "?", ": ", getTypeScriptType p])),
        "\n\x7d"])),
    "\n"]

/-- Lowercase hexadecimal digit, for JSON string escapes. -/
def hexDigitLower (n : Nat) : Char := if n < 10 then Char.ofNat (48 + n) else Char.ofNat (87 + n)

/-- JSON string escaping of one character, as `JSON.stringify` performs it. -/
def jsonEscapeChar (c : Char) : List Char :=
  if c == Char.ofNat 34 then [Char.ofNat 92, Char.ofNat 34]
  else if c == Char.ofNat 92 then [Char.ofNat 92, Char.ofNat 92]
  else if c == Char.ofNat 10 then [Char.ofNat 92, 'n']
  else if c == Char.ofNat 9 then [Char.ofNat 92, 't']
  else if c == Char.ofNat 13 then [Char.ofNat 92, 'r']
  else if c.toNat < 32 then [Char.ofNat 92, 'u', '0', '0', hexDigitLower (c.toNat / 16), hexDigitLower (c.toNat % 16)]
  else [c]

/-- JSON string escaping, as `JSON.stringify` performs it. -/
def jsonEscape (s : String) : String :=
  String.mk ((s.data.map jsonEscapeChar).flatten)

/-- Depth-fuelled `JSON.stringify(v, null, 2)`: two-space indentation,
`undefined` object fields omitted, `undefined` array items printed as
`null`.  `ind` is the indentation of the enclosing line. -/
def jsonStringifyFuel : Nat → String → JsVal → String
  | _, _, .null => "null"
  | _, _, .undef => "null"
  | _, _, .boolVal b => cond b "true" "false"
  | _, _, .num n => toString n
  | _, _, .str s => joinAll ["\"", jsonEscape s, "\""]
  | 0, _, .arr _ => ""
  | 0, _, .obj _ => ""
  | fuel + 1, ind, .arr xs =>
    match xs with
    | [] => "[]"
    | _ => joinAll ["[\n",
        joinSep ",\n" (xs.map (fun v => joinAll [ind, "  ", jsonStringifyFuel fuel (ind ++ "  ") v])),
        "\n", ind, "]"]
  | fuel + 1, ind, .obj fs =>
    let fs' := fs.filter (fun f => match f.2 with | .undef => false | _ => true)
    match fs' with
    | [] => "\x7b\x7d"
    | _ => joinAll ["\x7b\n",
        joinSep ",\n" (fs'.map (fun f => joinAll [ind, "  \"", jsonEscape f.1, "\": ", jsonStringifyFuel fuel (ind ++ "  ") f.2])),
        "\n", ind, "\x7d"]

/-- `JSON.stringify(v, null, 2)` (`jsSize v` bounds the nesting depth). -/
def jsonStringify2 (v : JsVal) : String :=
  jsonStringifyFuel (jsSize v) "" v

/-- The re-emitted integration descriptor file (src/generate.ts
`generateOpenApiTsConfigFile`, second revision lines 323-333). -/
def generateOpenApiTsConfigFile (integration : OpenApiTsIntegration) : String :=
  joinAll ["// OpenAPI-TS Configuration\nexport const openApiTsConfig = \x7b\n  typesPath: \"",
    jsToString integration.typesPath,
    "\",\n  baseUrl: \"",
    (match integration.baseUrl with | some s => s | none => ""),
    "\",\n  headers: ",
    jsonStringify2 (jsOr integration.headers (.obj [])),
    "\n\x7d as const;\n\nexport type OpenApiTsConfig = typeof openApiTsConfig;\n"]

/-- Options of one generation run (src/generate.ts `GenerateOptions`,
second revision). -/
structure GenerateOptions where
  schema : String
  outDir : String
  baseUrl : String
  groupByTag : Bool
  openApiTsConfig : Option String := none
  generateTypes : Bool := false
  verbose : Bool := false
  dryRun : Bool := false

/-- One output file as a (path, contents) pair. -/
structure GeneratedFile where
  path : String
  contents : String

/-- Observable outcome of one successful generation run: the planned
(path, contents) list, and the sublist actually handed to `writeFiles`
(empty in dry-run mode, where the plan is only printed). -/
structure GenerateResult where
  planned : List GeneratedFile
  written : List GeneratedFile

/-- The planning portion of `generate` (src/generate.ts second revision,
lines 182-251): integration loading, tag grouping and the `plannedFiles`
list in source order (core files, optional types file, hooks files,
optional integration config).  A hooks-render TypeError (empty camel-cased
operation id) propagates as a thrown error.  `opts.dryRun` is not consulted
here — it only selects between printing and writing, below. -/
def planGeneration (opts : GenerateOptions) (spec : SpecModel) (cfgRead : Except String JsVal) : Except String (List GeneratedFile) :=
  let openApiTsConfig :=
    match opts.openApiTsConfig with
    | some p => loadOpenApiTsConfig (some p) cfgRead
    | none => none
  let integration :=
    match openApiTsConfig with
    | some c => some (generateOpenApiTsIntegration opts.schema opts.outDir (some c))
    | none => none
  let byTag := groupOps spec.ops
  let core : List GeneratedFile :=
    [ { path := opts.outDir ++ "/client.ts", contents := renderClient opts.baseUrl integration },
      { path := opts.outDir ++ "/queryKeys.ts", contents := renderQueryKeys byTag },
      { path := opts.outDir ++ "/invalidate.ts", contents := renderInvalidate byTag } ]
  let withTypes :=
    if opts.generateTypes then core ++ [{ path := opts.outDir ++ "/types.ts", contents := generateTypesFile spec }]
    else core
  let hooksResult : Except String (List GeneratedFile) :=
    if opts.groupByTag then
      byTag.mapM (fun p =>
        match renderHooksByTag p.1 p.2 with
        | some contents => Except.ok { path := joinAll [opts.outDir, "/hooks/", p.1, ".generated.ts"], contents := contents }
        | none => Except.error "TypeError: Cannot read properties of undefined")
    else
      match renderHooksCombined byTag with
      | some contents => Except.ok [{ path := opts.outDir ++ "/hooks.generated.ts", contents := contents }]
      | none => Except.error "TypeError: Cannot read properties of undefined"
  match hooksResult with
  | .error e => .error e
  | .ok hooksFiles =>
    .ok (withTypes ++ hooksFiles ++
      (match integration with
       | some i => [{ path := opts.outDir ++ "/openapi-ts.config.ts", contents := generateOpenApiTsConfigFile i }]
       | none => []))

/-- The generation driver (src/generate.ts `generate`, second revision
lines 179-279).  `specResult` is the outcome of `await loadSpec(...)` —
`Except.error` models a rejected load (unreachable source, parse failure,
unresolvable reference), which short-circuits before any planning or
writing.  On success the planned files are written unless `dryRun` is set,
in which case the plan is only reported. -/
def generate (opts : GenerateOptions) (specResult : Except String SpecModel) (cfgRead : Except String JsVal) : Except String GenerateResult :=
  match specResult with
  | .error e => .error e
  | .ok spec =>
    match planGeneration opts spec cfgRead with
    | .error e => .error e
    | .ok planned => .ok { planned := planned, written := if opts.dryRun then [] else planned }

/-- Exit code of the CLI wrapper (src/cli.ts lines 39-49): the
`generate(...).catch` handler prints the error and calls
`process.exit(1)`; a fulfilled promise exits 0. -/
def cliExit : Except String GenerateResult → Nat
  | .ok _ => 0
  | .error _ => 1

/-- Files handed to `writeFiles` during a run: none when the run aborted
before the write stage. -/
def writtenFiles : Except String GenerateResult → List GeneratedFile
  | .ok r => r.written
  | .error _ => []

/-- Planned output paths of a run (empty for an aborted run). -/
def plannedPaths : Except String GenerateResult → List String
  | .ok r => r.planned.map (fun f => f.path)
  | .error _ => []

/-- Written output paths of a run (empty for an aborted run). -/
def writtenPaths (r : Except String GenerateResult) : List String :=
  (writtenFiles r).map (fun f => f.path)

/-- Sample inputs used by witness and counterexample theorems below. -/
def petGetOp : Op :=
  { tag := "pets", operationId := "getPetById", method := HttpMethod.get,
    path := "/pets/\x7bpetId\x7d",
    pathParams := [{ name := "petId", loc := "path", required := true }],
    responses := [("200", { contentType := some "application/json" })] }

/-- A mutation-style sample operation. -/
def petPostOp : Op :=
  { tag := "pets", operationId := "createPet", method := HttpMethod.post, path := "/pets",
    requestBody := some { contentType := "application/json" } }

/-- An operation whose declared `operationId` was `"\x7b\x7d"`, which the
loader sanitizes to the empty string. -/
def emptyIdOp : Op :=
  { tag := "pets", operationId := sanitizeOperationId "\x7b\x7d", method := HttpMethod.get, path := "/x" }

/-- A required `petId` path parameter. -/
def petIdReqParam : Param := { name := "petId", loc := "path", required := true }

/-- An optional `petId` path parameter. -/
def petIdOptParam : Param := { name := "petId", loc := "path", required := false }

/-- A path parameter whose name matches no placeholder of the sample path. -/
def otherPathParam : Param := { name := "other", loc := "path", required := true }

theorem strDataAppend (a b : String) : (a ++ b).data = a.data ++ b.data := rfl

theorem strEqOfDataEq (s t : String) (h : s.data = t.data) : s = t := by
  cases s; cases t; exact congrArg String.mk h

theorem swcSelf (l : List Char) : startsWithChars l l = true := by
  induction l with
  | nil => rfl
  | cons c cs ih => simp [startsWithChars, ih]

theorem swcExtend (n h t : List Char) (hs : startsWithChars n h = true) :
    startsWithChars n (h ++ t) = true := by
  induction n generalizing h with
  | nil => rfl
  | cons a as ih =>
    cases h with
    | nil => simp [startsWithChars] at hs
    | cons c cs =>
      simp [startsWithChars] at hs ⊢
      exact ⟨hs.1, ih cs hs.2⟩

theorem swcCancel (a b c : List Char) :
    startsWithChars (a ++ b) (a ++ c) = startsWithChars b c := by
  induction a with
  | nil => rfl
  | cons x xs ih => simp [startsWithChars, ih]

theorem hscOfSwc (n h : List Char) (hs : startsWithChars n h = true) :
    hasSubChars n h = true := by
  cases h with
  | nil =>
    cases n with
    | nil => rfl
    | cons a as => simp [startsWithChars] at hs
  | cons c cs => simp [hasSubChars, hs]

theorem hscNil (b : List Char) : hasSubChars [] b = true := by
  cases b with
  | nil => rfl
  | cons c cs => simp [hasSubChars, startsWithChars]

theorem hscAppendRight (n a b : List Char) (h : hasSubChars n b = true) :
    hasSubChars n (a ++ b) = true := by
  induction a with
  | nil => simpa using h
  | cons c cs ih => simp [hasSubChars, ih]

theorem hscAppendLeft (n a b : List Char) (h : hasSubChars n a = true) :
    hasSubChars n (a ++ b) = true := by
  induction a with
  | nil =>
    have hn : n = [] := by
      have h' : n.isEmpty = true := h
      simpa [List.isEmpty_iff] using h'
    subst hn
    exact hscNil b
  | cons c cs ih =>
    simp only [hasSubChars, Bool.or_eq_true] at h
    rcases h with h | h
    · simp only [List.cons_append, hasSubChars, Bool.or_eq_true]
      exact Or.inl (swcExtend n (c :: cs) b h)
    · simp only [List.cons_append, hasSubChars, Bool.or_eq_true]
      exact Or.inr (ih h)

theorem shsAppendLeft (n a b : String) (h : strHasSub n a = true) :
    strHasSub n (a ++ b) = true := by
  simp only [strHasSub, strDataAppend]
  exact hscAppendLeft n.data a.data b.data h

theorem shsAppendRight (n a b : String) (h : strHasSub n b = true) :
    strHasSub n (a ++ b) = true := by
  simp only [strHasSub, strDataAppend]
  exact hscAppendRight n.data a.data b.data h

theorem shsSelf (s : String) : strHasSub s s = true :=
  hscOfSwc s.data s.data (swcSelf s.data)

theorem shsJoinAll (n s : String) (l : List String) (hmem : s ∈ l) (h : strHasSub n s = true) :
    strHasSub n (joinAll l) = true := by
  induction l with
  | nil => cases hmem
  | cons a rest ih =>
    rcases List.mem_cons.mp hmem with rfl | hmem'
    · exact shsAppendLeft n s (joinAll rest) h
    · exact shsAppendRight n a (joinAll rest) (ih hmem')

theorem shsJoinSep (n sep s : String) (l : List String) (hmem : s ∈ l) (h : strHasSub n s = true) :
    strHasSub n (joinSep sep l) = true := by
  induction l with
  | nil => cases hmem
  | cons a rest ih =>
    cases rest with
    | nil =>
      rcases List.mem_cons.mp hmem with rfl | hmem'
      · exact h
      · cases hmem'
    | cons b rest' =>
      rcases List.mem_cons.mp hmem with rfl | hmem'
      · show strHasSub n (s ++ sep ++ joinSep sep (b :: rest')) = true
        exact shsAppendLeft n (s ++ sep) _ (shsAppendLeft n s sep h)
      · show strHasSub n (a ++ sep ++ joinSep sep (b :: rest')) = true
        exact shsAppendRight n (a ++ sep) _ (ih hmem')

theorem shsOfPrefixPair (a b c : String) (h : startsWithChars b.data c.data = true) :
    strHasSub (a ++ b) (a ++ c) = true := by
  simp only [strHasSub, strDataAppend]
  refine hscOfSwc _ _ ?_
  rw [swcCancel]
  exact h

theorem collectPairsUndefAll (ks : List String) :
    collectPairs (ks.map (fun k => (k, JsVal.undef))) = [] := by
  induction ks with
  | nil => rfl
  | cons k ks ih =>
    have h : collectPairs ((k, JsVal.undef) :: ks.map (fun k => (k, JsVal.undef)))
        = collectPairs (ks.map (fun k => (k, JsVal.undef))) := rfl
    simpa [h] using ih

/-- C2: the emitted query-parameter serializer skips `undefined`/`null`
entries, encodes array values as repeated pairs under the same key in
array order, stringifies every other value, returns the empty string for
an absent, empty or all-`undefined` mapping, and prefixes any non-empty
result with `?`; on `{status: ["available","pending"], limit: 10,
includeDeleted: undefined}` it yields
`?status=available&status=pending&limit=10`. -/
theorem serializeQuery_policy :
    serializeQuery (some [("status", JsVal.arr [JsVal.str "available", JsVal.str "pending"]),
        ("limit", JsVal.num 10), ("includeDeleted", JsVal.undef)])
      = "?status=available&status=pending&limit=10"
    ∧ (∀ k rest, collectPairs ((k, JsVal.undef) :: rest) = collectPairs rest)
    ∧ (∀ k rest, collectPairs ((k, JsVal.null) :: rest) = collectPairs rest)
    ∧ (∀ k items rest, collectPairs ((k, JsVal.arr items) :: rest)
        = (items.map (fun item => (k, jsToString item))) ++ collectPairs rest)
    ∧ (∀ k s rest, collectPairs ((k, JsVal.str s) :: rest) = (k, s) :: collectPairs rest)
    ∧ (∀ k n rest, collectPairs ((k, JsVal.num n) :: rest) = (k, toString n) :: collectPairs rest)
    ∧ (∀ k b rest, collectPairs ((k, JsVal.boolVal b) :: rest) = (k, cond b "true" "false") :: collectPairs rest)
    ∧ serializeQuery none = ""
    ∧ serializeQuery (some []) = ""
    ∧ (∀ ks : List String, serializeQuery (some (ks.map (fun k => (k, JsVal.undef)))) = "")
    ∧ (∀ entries, serializeQuery (some entries) = ""
        ∨ ∃ qs, qs ≠ "" ∧ serializeQuery (some entries) = "?" ++ qs) := by
  refine ⟨by decide, fun k rest => rfl, fun k rest => rfl, fun k items rest => rfl,
    fun k s rest => rfl, fun k n rest => rfl, fun k b rest => rfl, rfl, rfl, ?_, ?_⟩
  · intro ks
    simp [serializeQuery, collectPairsUndefAll, joinSep]
  · intro entries
    show (if joinSep "&" ((collectPairs entries).map (fun p => urlencode p.1 ++ "=" ++ urlencode p.2)) = ""
      then "" else "?" ++ joinSep "&" ((collectPairs entries).map (fun p => urlencode p.1 ++ "=" ++ urlencode p.2))) = ""
      ∨ ∃ qs, qs ≠ "" ∧ (if joinSep "&" ((collectPairs entries).map (fun p => urlencode p.1 ++ "=" ++ urlencode p.2)) = ""
      then "" else "?" ++ joinSep "&" ((collectPairs entries).map (fun p => urlencode p.1 ++ "=" ++ urlencode p.2))) = "?" ++ qs
    by_cases h : joinSep "&" ((collectPairs entries).map (fun p => urlencode p.1 ++ "=" ++ urlencode p.2)) = ""
    · exact Or.inl (by simp [h])
    · right
      refine ⟨_, h, ?_⟩
      rw [if_neg h]

/-- C7: a failed spec load short-circuits `generate` with the same error,
before any file is planned or written, and the CLI exits non-zero. -/
theorem spec_load_failure_aborts :
    ∀ (opts : GenerateOptions) (cfgRead : Except String JsVal) (e : String),
      generate opts (Except.error e) cfgRead = Except.error e
      ∧ writtenFiles (generate opts (Except.error e) cfgRead) = []
      ∧ plannedPaths (generate opts (Except.error e) cfgRead) = []
      ∧ cliExit (generate opts (Except.error e) cfgRead) = 1 := by
  intro opts cfgRead e
  exact ⟨rfl, rfl, rfl, rfl⟩

/-- C9: an operation id consisting only of braces sanitizes to the empty
string, whose camel-cased form is empty, and both hook renderers throw
(`fn[0].toUpperCase()` on the empty name) exactly when the camel-cased
operation id is empty; with a non-empty camel-cased id they render. -/
theorem hooks_throw_on_empty_id :
    sanitizeOperationId "\x7b\x7d" = ""
    ∧ camelCase "" = ""
    ∧ (∀ tag op, camelCase op.operationId = "" →
        renderQueryHook tag op = none ∧ renderMutationHook tag op = none)
    ∧ (∀ tag op, camelCase op.operationId ≠ "" →
        (renderQueryHook tag op).isSome = true ∧ (renderMutationHook tag op).isSome = true) := by
  refine ⟨by decide, by decide, ?_, ?_⟩
  · intro tag op h
    have hd : (camelCase op.operationId).data = [] := by rw [h]
    constructor
    · show (match (camelCase op.operationId).data with
        | [] => none
        | c :: cs => some (joinAll
          ["\nexport const use", String.mk (c.toUpper :: cs), " = <TData = ", generateResponseType op,
            ">(\n  params?: ", generateParamsType op false "never",
            ",\n  options?: \x7b\n    enabled?: boolean;\n    staleTime?: number;\n    gcTime?: number;\n    retry?: boolean | number;\n    retryDelay?: number | ((retryCount: number) => number);\n    refetchOnWindowFocus?: boolean;\n    refetchOnMount?: boolean;\n    refetchOnReconnect?: boolean;\n  \x7d\n) =>\n  useQuery<TData, ApiError>(\x7b\n    queryKey: ",
            hookKeyRef tag op, "(params?.query),\n    queryFn: async () => \x7b\n      const requestPath = ",
            buildPathWithParams op.path op.pathParams "params?.path",
            ";\n      const search = serializeQuery(params?.query);\n      return client.request<TData>(\x27",
            methodUpper op.method,
            "\x27, requestPath + search, \x7b\n        headers: params?.headers ?? undefined,\n      \x7d);\n    \x7d,\n    ...options,\n  \x7d);\n"])) = none
      rw [hd]
    · show (match (camelCase op.operationId).data with
        | [] => none
        | c :: cs => some (joinAll
          ["\nexport const use", String.mk (c.toUpper :: cs), " = <TData = ", generateResponseType op,
            ">(\n  options?: \x7b\n    onSuccess?: (data: TData) => void;\n    onError?: (error: ApiError) => void;\n    retry?: boolean | number;\n    retryDelay?: number | ((retryCount: number) => number);\n  \x7d\n) =>\n  useMutation<TData, ApiError, ",
            generateParamsType op op.requestBody.isSome (generateRequestBodyType op),
            ">(\x7b\n    mutationFn: async (",
            (if op.requestBody.isSome then "\x7b path, query, headers, body \x7d" else "\x7b path, query, headers \x7d"),
            ") => \x7b\n      const requestPath = ",
            buildPathWithParams op.path op.pathParams "path?",
            ";\n      const search = serializeQuery(query);\n      return client.request<TData>(\x27",
            methodUpper op.method,
            "\x27, requestPath + search, \x7b\n",
            (if op.requestBody.isSome then "        body: body === undefined ? undefined : JSON.stringify(body),\n" else ""),
            "        headers: headers ? \x7b ...headers \x7d : undefined,\n      \x7d);\n    \x7d,\n    ...options,\n  \x7d);\n"])) = none
      rw [hd]
  · intro tag op h
    cases hd : (camelCase op.operationId).data with
    | nil => exact absurd (strEqOfDataEq _ _ hd) h
    | cons c cs =>
      constructor
      · show (Option.isSome (match (camelCase op.operationId).data with
          | [] => none
          | c :: cs => some (joinAll
            ["\nexport const use", String.mk (c.toUpper :: cs), " = <TData = ", generateResponseType op,
              ">(\n  params?: ", generateParamsType op false "never",
              ",\n  options?: \x7b\n    enabled?: boolean;\n    staleTime?: number;\n    gcTime?: number;\n    retry?: boolean | number;\n    retryDelay?: number | ((retryCount: number) => number);\n    refetchOnWindowFocus?: boolean;\n    refetchOnMount?: boolean;\n    refetchOnReconnect?: boolean;\n  \x7d\n) =>\n  useQuery<TData, ApiError>(\x7b\n    queryKey: ",
              hookKeyRef tag op, "(params?.query),\n    queryFn: async () => \x7b\n      const requestPath = ",
              buildPathWithParams op.path op.pathParams "params?.path",
              ";\n      const search = serializeQuery(params?.query);\n      return client.request<TData>(\x27",
              methodUpper op.method,
              "\x27, requestPath + search, \x7b\n        headers: params?.headers ?? undefined,\n      \x7d);\n    \x7d,\n    ...options,\n  \x7d);\n"]))) = true
        rw [hd]
        rfl
      · show (Option.isSome (match (camelCase op.operationId).data with
          | [] => none
          | c :: cs => some (joinAll
            ["\nexport const use", String.mk (c.toUpper :: cs), " = <TData = ", generateResponseType op,
              ">(\n  options?: \x7b\n    onSuccess?: (data: TData) => void;\n    onError?: (error: ApiError) => void;\n    retry?: boolean | number;\n    retryDelay?: number | ((retryCount: number) => number);\n  \x7d\n) =>\n  useMutation<TData, ApiError, ",
              generateParamsType op op.requestBody.isSome (generateRequestBodyType op),
              ">(\x7b\n    mutationFn: async (",
              (if op.requestBody.isSome then "\x7b path, query, headers, body \x7d" else "\x7b path, query, headers \x7d"),
              ") => \x7b\n      const requestPath = ",
              buildPathWithParams op.path op.pathParams "path?",
              ";\n      const search = serializeQuery(query);\n      return client.request<TData>(\x27",
              methodUpper op.method,
              "\x27, requestPath + search, \x7b\n",
              (if op.requestBody.isSome then "        body: body === undefined ? undefined : JSON.stringify(body),\n" else ""),
              "        headers: headers ? \x7b ...headers \x7d : undefined,\n      \x7d);\n    \x7d,\n    ...options,\n  \x7d);\n"]))) = true
        rw [hd]
        rfl

theorem hooks_throw_on_empty_id_witness :
    camelCase emptyIdOp.operationId = "" ∧ renderQueryHook "pets" emptyIdOp = none
    ∧ camelCase petGetOp.operationId ≠ "" ∧ (renderQueryHook "pets" petGetOp).isSome = true := by
  refine ⟨by decide, ?_, by decide, ?_⟩
  · exact (hooks_throw_on_empty_id.2.2.1 "pets" emptyIdOp (by decide)).1
  · exact (hooks_throw_on_empty_id.2.2.2 "pets" petGetOp (by decide)).1

/-- C8 (amended): a missing path, unreadable file or malformed JSON makes
`loadOpenApiTsConfig` return the disabled state `null` — silently, the
catch block produces no output — and `generate` proceeds exactly as if no
integration had been configured. -/
theorem integration_soft_failure :
    ∀ (p e : String) (opts : GenerateOptions) (spec : SpecModel),
      loadOpenApiTsConfig (some p) (Except.error e) = none
      ∧ loadOpenApiTsConfig none (Except.error e) = none
      ∧ loadOpenApiTsConfigLog (some p) (Except.error e) = []
      ∧ generate { opts with openApiTsConfig := some p } (Except.ok spec) (Except.error e)
          = generate { opts with openApiTsConfig := none } (Except.ok spec) (Except.error e) := by
  intro p e opts spec
  obtain ⟨sc, od, bu, gbt, cfgP, gt, vb, dr⟩ := opts
  exact ⟨rfl, rfl, rfl, rfl⟩

/-- C8 counterexample to "the failure is logged": on a malformed
descriptor the loader returns the disabled state but its catch block emits
no console output at all. -/
theorem integration_failure_silent_cex :
    loadOpenApiTsConfig (some "./openapi-ts.config.json") (Except.error "SyntaxError: Unexpected token") = none
    ∧ loadOpenApiTsConfigLog (some "./openapi-ts.config.json") (Except.error "SyntaxError: Unexpected token") = [] :=
  ⟨rfl, rfl⟩

/-- C5 counterexample: for the template `/pets/{petId}` with an empty
declared path-parameter list (the placeholder's declaration absent), the
renderer returns the path as a quoted literal with the placeholder intact
and substitutes no runtime reference and no empty-string fallback. -/
theorem path_interpolation_no_decl_cex :
    buildPathWithParams "/pets/\x7bpetId\x7d" [] "params?.path" = "\x27/pets/\x7bpetId\x7d\x27"
    ∧ strHasSub "\x7bpetId\x7d" (buildPathWithParams "/pets/\x7bpetId\x7d" [] "params?.path") = true
    ∧ strHasSub "$\x7b" (buildPathWithParams "/pets/\x7bpetId\x7d" [] "params?.path") = false :=
  ⟨by decide, by decide, by decide⟩

/-- C5 (amended): when at least one path parameter is declared, every
`{name}` placeholder is substituted — a required declared parameter gets
the direct `${accessor}` reference, an optional or undeclared one the
`${accessor ?? ''}` empty-string fallback — while with no declared path
parameters the path is emitted as an untouched quoted literal. -/
theorem path_interpolation_rules :
    buildPathWithParams "/pets/\x7bpetId\x7d" [petIdReqParam] "params?.path" = "`/pets/$\x7bparams?.path?.petId\x7d`"
    ∧ buildPathWithParams "/pets/\x7bpetId\x7d" [petIdOptParam] "params?.path" = "`/pets/$\x7bparams?.path?.petId ?? \x27\x27\x7d`"
    ∧ buildPathWithParams "/pets/\x7bpetId\x7d" [otherPathParam] "params?.path" = "`/pets/$\x7bparams?.path?.petId ?? \x27\x27\x7d`"
    ∧ (∀ path base, buildPathWithParams path [] base = joinAll ["\x27", path, "\x27"])
    ∧ (∀ path pathParams base, pathParams ≠ [] →
        buildPathWithParams path pathParams base
          = joinAll ["`", String.mk (replacePlaceholders pathParams base path), "`"])
    ∧ (∀ pathParams base name p, pathParams.find? (fun q => q.name == name) = some p → p.required = true →
        substForPlaceholder pathParams base name = joinAll ["$\x7b", buildParamAccessor base name, "\x7d"])
    ∧ (∀ pathParams base name p, pathParams.find? (fun q => q.name == name) = some p → p.required = false →
        substForPlaceholder pathParams base name = joinAll ["$\x7b", buildParamAccessor base name, " ?? \x27\x27\x7d"])
    ∧ (∀ pathParams base name, pathParams.find? (fun q => q.name == name) = none →
        substForPlaceholder pathParams base name = joinAll ["$\x7b", buildParamAccessor base name, " ?? \x27\x27\x7d"]) := by
  refine ⟨by decide, by decide, by decide, ?_, ?_, ?_, ?_, ?_⟩
  · intro path base
    rfl
  · intro path pathParams base hne
    cases pathParams with
    | nil => exact absurd rfl hne
    | cons p ps => rfl
  · intro pathParams base name p hf hreq
    simp [substForPlaceholder, hf, hreq]
  · intro pathParams base name p hf hreq
    simp [substForPlaceholder, hf, hreq]
  · intro pathParams base name hf
    simp [substForPlaceholder, hf]

theorem path_interpolation_rules_witness :
    substForPlaceholder [petIdReqParam] "params?.path" "petId" = "$\x7bparams?.path?.petId\x7d"
    ∧ substForPlaceholder [petIdOptParam] "params?.path" "petId" = "$\x7bparams?.path?.petId ?? \x27\x27\x7d"
    ∧ buildPathWithParams "/a" [petIdReqParam] "base"
        = joinAll ["`", String.mk (replacePlaceholders [petIdReqParam] "base" "/a"), "`"] := by
  refine ⟨?_, ?_, ?_⟩
  · rw [path_interpolation_rules.2.2.2.2.2.1 [petIdReqParam] "params?.path" "petId" petIdReqParam rfl rfl]
    decide
  · rw [path_interpolation_rules.2.2.2.2.2.2.1 [petIdOptParam] "params?.path" "petId" petIdOptParam rfl rfl]
    decide
  · exact path_interpolation_rules.2.2.2.2.1 "/a" [petIdReqParam] "base" (by simp)

theorem renderQueryHookUnfold (tag : String) (op : Op) :
    renderQueryHook tag op = (match (camelCase op.operationId).data with
      | [] => none
      | c :: cs => some (joinAll
        ["\nexport const use", String.mk (c.toUpper :: cs), " = <TData = ", generateResponseType op,
          ">(\n  params?: ", generateParamsType op false "never",
          ",\n  options?: \x7b\n    enabled?: boolean;\n    staleTime?: number;\n    gcTime?: number;\n    retry?: boolean | number;\n    retryDelay?: number | ((retryCount: number) => number);\n    refetchOnWindowFocus?: boolean;\n    refetchOnMount?: boolean;\n    refetchOnReconnect?: boolean;\n  \x7d\n) =>\n  useQuery<TData, ApiError>(\x7b\n    queryKey: ",
          hookKeyRef tag op, "(params?.query),\n    queryFn: async () => \x7b\n      const requestPath = ",
          buildPathWithParams op.path op.pathParams "params?.path",
          ";\n      const search = serializeQuery(params?.query);\n      return client.request<TData>(\x27",
          methodUpper op.method,
          "\x27, requestPath + search, \x7b\n        headers: params?.headers ?? undefined,\n      \x7d);\n    \x7d,\n    ...options,\n  \x7d);\n"])) := rfl

theorem renderMutationHookUnfold (tag : String) (op : Op) :
    renderMutationHook tag op = (match (camelCase op.operationId).data with
      | [] => none
      | c :: cs => some (joinAll
        ["\nexport const use", String.mk (c.toUpper :: cs), " = <TData = ", generateResponseType op,
          ">(\n  options?: \x7b\n    onSuccess?: (data: TData) => void;\n    onError?: (error: ApiError) => void;\n    retry?: boolean | number;\n    retryDelay?: number | ((retryCount: number) => number);\n  \x7d\n) =>\n  useMutation<TData, ApiError, ",
          generateParamsType op op.requestBody.isSome (generateRequestBodyType op),
          ">(\x7b\n    mutationFn: async (",
          (if op.requestBody.isSome then "\x7b path, query, headers, body \x7d" else "\x7b path, query, headers \x7d"),
          ") => \x7b\n      const requestPath = ",
          buildPathWithParams op.path op.pathParams "path?",
          ";\n      const search = serializeQuery(query);\n      return client.request<TData>(\x27",
          methodUpper op.method,
          "\x27, requestPath + search, \x7b\n",
          (if op.requestBody.isSome then "        body: body === undefined ? undefined : JSON.stringify(body),\n" else ""),
          "        headers: headers ? \x7b ...headers \x7d : undefined,\n      \x7d);\n    \x7d,\n    ...options,\n  \x7d);\n"])) := rfl

/-- C3: the hooks renderer classifies an operation as a query hook iff its
method is `get` or `head` (`hookFor` is the per-operation choice
`renderTagHooks` maps over its operations); every rendered query hook
invokes `useQuery` and every rendered mutation hook invokes
`useMutation`. -/
theorem hook_classification :
    (∀ m, isQuery m = true ↔ (m = HttpMethod.get ∨ m = HttpMethod.head))
    ∧ (∀ tag op, hookFor tag op = if isQuery op.method then renderQueryHook tag op else renderMutationHook tag op)
    ∧ (∀ tag ops, renderTagHooks tag ops = (ops.mapM (hookFor tag)).map (joinSep "\n"))
    ∧ (∀ tag op s, renderQueryHook tag op = some s → strHasSub "useQuery<TData, ApiError>" s = true)
    ∧ (∀ tag op s, renderMutationHook tag op = some s → strHasSub "useMutation<TData, ApiError," s = true) := by
  refine ⟨?_, fun tag op => rfl, fun tag ops => rfl, ?_, ?_⟩
  · intro m
    cases m <;> decide
  · intro tag op s h
    rw [renderQueryHookUnfold] at h
    cases hd : (camelCase op.operationId).data with
    | nil => rw [hd] at h; cases h
    | cons c cs =>
      rw [hd] at h
      injection h with h'
      rw [← h']
      exact shsJoinAll _ ",\n  options?: \x7b\n    enabled?: boolean;\n    staleTime?: number;\n    gcTime?: number;\n    retry?: boolean | number;\n    retryDelay?: number | ((retryCount: number) => number);\n    refetchOnWindowFocus?: boolean;\n    refetchOnMount?: boolean;\n    refetchOnReconnect?: boolean;\n  \x7d\n) =>\n  useQuery<TData, ApiError>(\x7b\n    queryKey: " _ (by simp) (by decide)
  · intro tag op s h
    rw [renderMutationHookUnfold] at h
    cases hd : (camelCase op.operationId).data with
    | nil => rw [hd] at h; cases h
    | cons c cs =>
      rw [hd] at h
      injection h with h'
      rw [← h']
      exact shsJoinAll _ ">(\n  options?: \x7b\n    onSuccess?: (data: TData) => void;\n    onError?: (error: ApiError) => void;\n    retry?: boolean | number;\n    retryDelay?: number | ((retryCount: number) => number);\n  \x7d\n) =>\n  useMutation<TData, ApiError, " _ (by simp) (by decide)

theorem hook_classification_witness :
    isQuery HttpMethod.get = true ∧ isQuery HttpMethod.post = false
    ∧ strHasSub "useQuery<TData, ApiError>" ((renderQueryHook "pets" petGetOp).getD "") = true
    ∧ strHasSub "useMutation<TData, ApiError," ((renderMutationHook "pets" petPostOp).getD "") = true := by
  refine ⟨(hook_classification.1 HttpMethod.get).mpr (Or.inl rfl), by decide, ?_, ?_⟩
  · exact hook_classification.2.2.2.1 "pets" petGetOp _ (by decide)
  · exact hook_classification.2.2.2.2 "pets" petPostOp _ (by decide)

/-- C1 counterexample: the key tuple is not `[tag, operationId, params ?? {}]`
for every operation — for the (valid) tag `"pet store"` the factory emits
`camelCase("pet store") = "petStore"` as the first component, not the raw
tag. -/
theorem queryKey_raw_tag_cex :
    ¬ (queryKeyTuple "pet store" "getPetById" none
        = [JsVal.str "pet store", JsVal.str "getPetById", JsVal.obj []]) := by
  intro h
  simp only [queryKeyTuple] at h
  injection h with h1 h2
  injection h1 with h1'
  rw [show camelCase "pet store" = "petStore" from by decide] at h1'
  exact absurd h1' (by decide)

/-- C1 (amended): the cache key is the fixed 3-tuple
`[camelCase(tag), camelCase(operationId), params ?? {}]`; the key-factory
member referenced by the hooks renderer and by the invalidate renderer is
the same `queryKeys.<camelCase tag>.<camelCase operationId>` entry, whose
factory line appears in the emitted queryKeys file and which the query
hook calls with `params?.query`; for `getPetById` under tag `pets` (both
already camel-cased) with no query params the key is
`["pets","getPetById",{}]`. -/
theorem queryKey_tuple_shape :
    (∀ tag opId params, queryKeyTuple tag opId params
        = [JsVal.str (camelCase tag), JsVal.str (camelCase opId), params.getD (JsVal.obj [])])
    ∧ (∀ tag op, invalidateKeyRef tag op = hookKeyRef tag op)
    ∧ queryKeyTuple "pets" "getPetById" none
        = [JsVal.str "pets", JsVal.str "getPetById", JsVal.obj []]
    ∧ (∀ byTag tag ops op, (tag, ops) ∈ byTag → op ∈ ops →
        strHasSub (queryKeysEntryLine tag op) (renderQueryKeys byTag) = true)
    ∧ (∀ tag op s, renderQueryHook tag op = some s →
        strHasSub (hookKeyRef tag op ++ "(params?.query)") s = true) := by
  refine ⟨fun tag opId params => rfl, fun tag op => rfl, ?_, ?_, ?_⟩
  · show [JsVal.str (camelCase "pets"), JsVal.str (camelCase "getPetById"), JsVal.obj []]
      = [JsVal.str "pets", JsVal.str "getPetById", JsVal.obj []]
    rw [show camelCase "pets" = "pets" from by decide,
      show camelCase "getPetById" = "getPetById" from by decide]
  · intro byTag tag ops op hT hO
    have h1 : strHasSub (queryKeysEntryLine tag op)
        (joinSep ",\n" (ops.map (queryKeysEntryLine tag))) = true :=
      shsJoinSep _ _ _ _ (List.mem_map_of_mem _ hO) (shsSelf _)
    have h2 : strHasSub (queryKeysEntryLine tag op) (queryKeysTagBlock (tag, ops)) = true := by
      show strHasSub (queryKeysEntryLine tag op)
        (joinAll ["  ", camelCase tag, ": \x7b\n    root: [\x27", camelCase tag,
          "\x27] as const,\n", joinSep ",\n" (ops.map (queryKeysEntryLine tag)), "\n  \x7d"]) = true
      exact shsJoinAll _ _ _ (by simp) h1
    have h3 : strHasSub (queryKeysEntryLine tag op)
        (joinSep ",\n" (byTag.map queryKeysTagBlock)) = true :=
      shsJoinSep _ _ _ _ (List.mem_map_of_mem _ hT) h2
    exact shsJoinAll _ _ _ (by simp) h3
  · intro tag op s h
    rw [renderQueryHookUnfold] at h
    cases hd : (camelCase op.operationId).data with
    | nil => rw [hd] at h; cases h
    | cons c cs =>
      rw [hd] at h
      injection h with h'
      rw [← h']
      simp only [joinAll]
      apply shsAppendRight
      apply shsAppendRight
      apply shsAppendRight
      apply shsAppendRight
      apply shsAppendRight
      apply shsAppendRight
      apply shsAppendRight
      exact shsOfPrefixPair _ _ _ (swcExtend _ _ _ (by decide))

theorem queryKey_tuple_shape_witness :
    strHasSub (queryKeysEntryLine "pets" petGetOp) (renderQueryKeys [("pets", [petGetOp])]) = true
    ∧ strHasSub (hookKeyRef "pets" petGetOp ++ "(params?.query)")
        ((renderQueryHook "pets" petGetOp).getD "") = true := by
  constructor
  · exact queryKey_tuple_shape.2.2.2.1 [("pets", [petGetOp])] "pets" [petGetOp] petGetOp
      (by simp) (by simp)
  · exact queryKey_tuple_shape.2.2.2.2 "pets" petGetOp _ (by decide)

/-- C4 counterexample: the invalidate file does not cover every operation
of a tag — for a tag holding only the mutation `createPet` the emitted
mapping has no entry at all for it (its name never occurs in the
output). -/
theorem invalidate_mutation_missing_cex :
    petPostOp ∈ [petPostOp]
    ∧ strHasSub "createPet" (renderInvalidate [("pets", [petPostOp])]) = false
    ∧ strHasSub (invalidateEntryLine "pets" petPostOp) (renderInvalidate [("pets", [petPostOp])]) = false :=
  ⟨by simp, by decide, by decide⟩

/-- C4 (amended): the invalidate renderer's per-tag mapping covers exactly
the query operations of the tag — an operation receives an invalidation
entry iff its method is `get` or `head`, and every such operation's entry
line occurs in the emitted file. -/
theorem invalidate_entries_scope :
    (∀ ops op, op ∈ invalidateOps ops ↔ (op ∈ ops ∧ (op.method = HttpMethod.get ∨ op.method = HttpMethod.head)))
    ∧ (∀ byTag tag ops op, (tag, ops) ∈ byTag → op ∈ invalidateOps ops →
        strHasSub (invalidateEntryLine tag op) (renderInvalidate byTag) = true) := by
  constructor
  · intro ops op
    simp [invalidateOps, List.mem_filter]
  · intro byTag tag ops op hT hO
    have h1 : strHasSub (invalidateEntryLine tag op)
        (joinSep ",\n" ((invalidateOps ops).map (invalidateEntryLine tag))) = true :=
      shsJoinSep _ _ _ _ (List.mem_map_of_mem _ hO) (shsSelf _)
    have h2 : strHasSub (invalidateEntryLine tag op) (invalidateTagBlock (tag, ops)) = true := by
      show strHasSub (invalidateEntryLine tag op)
        (joinAll ["  ", camelCase tag, ": \x7b\n",
          joinSep ",\n" ((invalidateOps ops).map (invalidateEntryLine tag)), "\n  \x7d"]) = true
      exact shsJoinAll _ _ _ (by simp) h1
    have h3 : strHasSub (invalidateEntryLine tag op)
        (joinSep ",\n" (byTag.map invalidateTagBlock)) = true :=
      shsJoinSep _ _ _ _ (List.mem_map_of_mem _ hT) h2
    exact shsJoinAll _ _ _ (by simp) h3

theorem invalidate_entries_scope_witness :
    petGetOp ∈ invalidateOps [petGetOp, petPostOp]
    ∧ (petPostOp ∈ invalidateOps [petGetOp, petPostOp] → False)
    ∧ strHasSub (invalidateEntryLine "pets" petGetOp)
        (renderInvalidate [("pets", [petGetOp, petPostOp])]) = true := by
  refine ⟨?_, ?_, ?_⟩
  · exact (invalidate_entries_scope.1 [petGetOp, petPostOp] petGetOp).mpr ⟨by simp, Or.inl rfl⟩
  · intro hmem
    rcases ((invalidate_entries_scope.1 [petGetOp, petPostOp] petPostOp).mp hmem).2 with h | h <;>
      exact absurd h (by decide)
  · exact invalidate_entries_scope.2 [("pets", [petGetOp, petPostOp])] "pets" [petGetOp, petPostOp] petGetOp
      (by simp) ((invalidate_entries_scope.1 [petGetOp, petPostOp] petGetOp).mpr ⟨by simp, Or.inl rfl⟩)

/-- C6: with identical inputs, a dry run plans exactly the paths a real
run writes, and passes nothing to the writer itself. -/
theorem dry_run_plan_symmetry :
    ∀ (opts : GenerateOptions) (specRes : Except String SpecModel) (cfgRead : Except String JsVal),
      plannedPaths (generate { opts with dryRun := true } specRes cfgRead)
        = writtenPaths (generate { opts with dryRun := false } specRes cfgRead)
      ∧ writtenFiles (generate { opts with dryRun := true } specRes cfgRead) = []
      ∧ plannedPaths (generate { opts with dryRun := true } specRes cfgRead)
        = plannedPaths (generate { opts with dryRun := false } specRes cfgRead) := by
  intro opts specRes cfgRead
  obtain ⟨sc, od, bu, gbt, cfgP, gt, vb, dr⟩ := opts
  cases specRes with
  | error e => exact ⟨rfl, rfl, rfl⟩
  | ok spec =>
    have hplan : planGeneration { schema := sc, outDir := od, baseUrl := bu, groupByTag := gbt, openApiTsConfig := cfgP, generateTypes := gt, verbose := vb, dryRun := false } spec cfgRead
        = planGeneration { schema := sc, outDir := od, baseUrl := bu, groupByTag := gbt, openApiTsConfig := cfgP, generateTypes := gt, verbose := vb, dryRun := true } spec cfgRead := rfl
    cases hp : planGeneration { schema := sc, outDir := od, baseUrl := bu, groupByTag := gbt, openApiTsConfig := cfgP, generateTypes := gt, verbose := vb, dryRun := true } spec cfgRead with
    | error e =>
      have hp2 : planGeneration { schema := sc, outDir := od, baseUrl := bu, groupByTag := gbt, openApiTsConfig := cfgP, generateTypes := gt, verbose := vb, dryRun := false } spec cfgRead = Except.error e := by
        rw [hplan]; exact hp
      refine ⟨?_, ?_, ?_⟩ <;> simp [generate, hp, hp2, plannedPaths, writtenPaths, writtenFiles]
    | ok planned =>
      have hp2 : planGeneration { schema := sc, outDir := od, baseUrl := bu, groupByTag := gbt, openApiTsConfig := cfgP, generateTypes := gt, verbose := vb, dryRun := false } spec cfgRead = Except.ok planned := by
        rw [hplan]; exact hp
      refine ⟨?_, ?_, ?_⟩ <;> simp [generate, hp, hp2, plannedPaths, writtenPaths, writtenFiles]

theorem lookupTagInsert (acc : List (String × List Op)) (op : Op) (t : String) :
    lookupTag (insertOp acc op) t
      = if t = op.tag then some (((lookupTag acc t).getD []) ++ [op]) else lookupTag acc t := by
  induction acc with
  | nil =>
    show lookupTag [(op.tag, [op])] t = _
    by_cases h : t = op.tag
    · subst h; simp [lookupTag]
    · simp [lookupTag, h, Ne.symm h]
  | cons p rest ih =>
    show lookupTag (if p.1 = op.tag then (p.1, p.2 ++ [op]) :: rest else p :: insertOp rest op) t = _
    by_cases hpt : p.1 = op.tag
    · rw [if_pos hpt]
      by_cases ht : t = op.tag
      · subst ht
        simp [lookupTag, hpt]
      · rw [if_neg ht]
        have hp1t : ¬ (p.1 = t) := fun hh => ht (by rw [← hh, hpt])
        simp [lookupTag, hp1t]
    · rw [if_neg hpt]
      by_cases hp1t : p.1 = t
      · have htop : ¬ (t = op.tag) := fun hh => hpt (by rw [hp1t, hh])
        simp [lookupTag, hp1t, htop]
      · simp [lookupTag, hp1t, ih]

theorem lookupTagNoneIff (acc : List (String × List Op)) (t : String) :
    lookupTag acc t = none ↔ t ∉ acc.map Prod.fst := by
  induction acc with
  | nil => simp [lookupTag]
  | cons p rest ih =>
    by_cases h : p.1 = t
    · simp [lookupTag, h]
    · rw [show lookupTag (p :: rest) t = lookupTag rest t from by simp [lookupTag, h], ih]
      constructor
      · intro hn
        simp only [List.map_cons, List.mem_cons]
        intro hcon
        rcases hcon with hc | hc
        · exact h hc.symm
        · exact hn hc
      · intro hn hc
        exact hn (by simp [List.map_cons, List.mem_cons, hc])

theorem keysInsertOp (acc : List (String × List Op)) (op : Op) :
    (insertOp acc op).map Prod.fst
      = if (lookupTag acc op.tag).isSome then acc.map Prod.fst else acc.map Prod.fst ++ [op.tag] := by
  induction acc with
  | nil => simp [insertOp, lookupTag]
  | cons p rest ih =>
    by_cases hpt : p.1 = op.tag
    · simp [insertOp, lookupTag, hpt]
    · rw [show insertOp (p :: rest) op = p :: insertOp rest op from by simp [insertOp, hpt],
        show lookupTag (p :: rest) op.tag = lookupTag rest op.tag from by simp [lookupTag, hpt]]
      simp only [List.map_cons, ih]
      by_cases hs : (lookupTag rest op.tag).isSome
      · simp [hs]
      · simp [hs]

theorem nodupKeysInsertOp (acc : List (String × List Op)) (op : Op)
    (h : (acc.map Prod.fst).Nodup) : ((insertOp acc op).map Prod.fst).Nodup := by
  rw [keysInsertOp]
  by_cases hs : (lookupTag acc op.tag).isSome
  · simp [hs, h]
  · rw [if_neg hs]
    have hn : lookupTag acc op.tag = none := by
      cases hl : lookupTag acc op.tag with
      | none => rfl
      | some l => rw [hl] at hs; simp at hs
    have hnm : op.tag ∉ acc.map Prod.fst := (lookupTagNoneIff acc op.tag).mp hn
    simp [List.nodup_append, h, hnm]

theorem lookupTagFoldl (ops : List Op) (acc : List (String × List Op)) (t : String) :
    lookupTag (ops.foldl insertOp acc) t
      = (match lookupTag acc t with
        | some l => some (l ++ ops.filter (fun o => o.tag == t))
        | none =>
          if (ops.filter (fun o => o.tag == t)).isEmpty then none
          else some (ops.filter (fun o => o.tag == t))) := by
  induction ops generalizing acc with
  | nil =>
    cases h : lookupTag acc t with
    | some l => simp [h]
    | none => simp [h]
  | cons o os ih =>
    show lookupTag (os.foldl insertOp (insertOp acc o)) t = _
    rw [ih (insertOp acc o), lookupTagInsert]
    by_cases ht : o.tag = t
    · rw [if_pos ht.symm]
      cases h : lookupTag acc t with
      | some l => simp [h, List.filter_cons, ht]
      | none => simp [h, List.filter_cons, ht]
    · rw [if_neg (fun hh => ht hh.symm)]
      cases h : lookupTag acc t with
      | some l => simp [h, List.filter_cons, ht]
      | none => simp [h, List.filter_cons, ht]

theorem lookupGroupOps (ops : List Op) (t : String) :
    lookupTag (groupOps ops) t
      = (if (ops.filter (fun o => o.tag == t)).isEmpty then none
         else some (ops.filter (fun o => o.tag == t))) := by
  have h := lookupTagFoldl ops [] t
  simpa [groupOps, lookupTag] using h

theorem groupOpsKeysNodup (ops : List Op) : ((groupOps ops).map Prod.fst).Nodup := by
  suffices h : ∀ acc : List (String × List Op), (acc.map Prod.fst).Nodup →
      ((ops.foldl insertOp acc).map Prod.fst).Nodup by
    exact h [] (by simp)
  induction ops with
  | nil => intro acc h; exact h
  | cons o os ih => intro acc h; exact ih _ (nodupKeysInsertOp acc o h)

theorem lookupOfMemNodup (acc : List (String × List Op)) (pr : String × List Op)
    (h : (acc.map Prod.fst).Nodup) (hm : pr ∈ acc) : lookupTag acc pr.1 = some pr.2 := by
  induction acc with
  | nil => cases hm
  | cons q rest ih =>
    rcases List.mem_cons.mp hm with rfl | hm'
    · simp [lookupTag]
    · rw [List.map_cons] at h
      have hnodup := List.nodup_cons.mp h
      have hq : ¬ (q.1 = pr.1) := by
        intro he
        exact hnodup.1 (he ▸ List.mem_map_of_mem Prod.fst hm')
      simp [lookupTag, hq, ih hnodup.2 hm']

theorem memOfLookup (acc : List (String × List Op)) (t : String) (l : List Op)
    (h : lookupTag acc t = some l) : (t, l) ∈ acc := by
  induction acc with
  | nil => cases h
  | cons q rest ih =>
    by_cases hq : q.1 = t
    · simp [lookupTag, hq] at h
      have : q = (t, l) := by
        cases q
        simp_all
      rw [← this]
      exact List.mem_cons_self q rest
    · simp [lookupTag, hq] at h
      exact List.mem_cons_of_mem _ (ih h)

theorem groupBlockEqFilter (ops : List Op) (pr : String × List Op) (hm : pr ∈ groupOps ops) :
    pr.2 = ops.filter (fun o => o.tag == pr.1) := by
  have h1 := lookupOfMemNodup (groupOps ops) pr (groupOpsKeysNodup ops) hm
  have h2 := lookupGroupOps ops pr.1
  rw [h1] at h2
  by_cases he : (ops.filter (fun o => o.tag == pr.1)).isEmpty
  · rw [if_pos he] at h2; cases h2
  · rw [if_neg he] at h2
    injection h2

/-- C10: the loader's grouping tag is the first declared tag only
(`"default"` when none is declared), and the generator's tag grouping
assigns each operation to exactly one group — the group keyed by its tag,
whose member list is precisely the operations carrying that tag in source
order. -/
theorem first_tag_grouping :
    (∀ t rest, deriveTag (t :: rest) = t)
    ∧ deriveTag [] = "default"
    ∧ (∀ ops t, lookupTag (groupOps ops) t
        = (if (ops.filter (fun o => o.tag == t)).isEmpty then none
           else some (ops.filter (fun o => o.tag == t))))
    ∧ (∀ ops pr, pr ∈ groupOps ops → pr.2 = ops.filter (fun o => o.tag == pr.1))
    ∧ (∀ ops, ((groupOps ops).map Prod.fst).Nodup)
    ∧ (∀ ops op, op ∈ ops → ∃ l, (op.tag, l) ∈ groupOps ops ∧ op ∈ l
        ∧ ∀ pr, pr ∈ groupOps ops → op ∈ pr.2 → pr = (op.tag, l)) := by
  refine ⟨fun t rest => rfl, rfl, lookupGroupOps, groupBlockEqFilter, groupOpsKeysNodup, ?_⟩
  intro ops op hm
  have hfil : op ∈ ops.filter (fun o => o.tag == op.tag) := List.mem_filter.mpr ⟨hm, by simp⟩
  have hne : ¬ (ops.filter (fun o => o.tag == op.tag)).isEmpty = true := by
    intro hie
    rw [List.isEmpty_iff] at hie
    rw [hie] at hfil
    cases hfil
  refine ⟨ops.filter (fun o => o.tag == op.tag), ?_, hfil, ?_⟩
  · apply memOfLookup
    rw [lookupGroupOps, if_neg hne]
  · intro pr hpr hoppr
    have hblk := groupBlockEqFilter ops pr hpr
    have htag : op.tag = pr.1 := by
      rw [hblk] at hoppr
      have h := (List.mem_filter.mp hoppr).2
      simpa using h
    cases pr with
    | mk a b =>
      have hblk' : b = ops.filter (fun o => o.tag == a) := hblk
      have htag' : op.tag = a := htag
      simp only [Prod.mk.injEq]
      refine ⟨htag'.symm, ?_⟩
      rw [htag']
      exact hblk' 

theorem first_tag_grouping_witness :
    deriveTag ["pets", "store"] = "pets"
    ∧ (∃ l, (petGetOp.tag, l) ∈ groupOps [petGetOp, petPostOp] ∧ petGetOp ∈ l
        ∧ ∀ pr, pr ∈ groupOps [petGetOp, petPostOp] → petGetOp ∈ pr.2 → pr = (petGetOp.tag, l)) := by
  constructor
  · exact first_tag_grouping.1 "pets" ["store"]
  · exact first_tag_grouping.2.2.2.2.2 [petGetOp, petPostOp] petGetOp (by simp)
